import Mathlib

/-!
Shallow embedding of the cart workflow, group-membership workflow,
product-image primary flag and slug derivation of a Node/Mongoose
e-commerce backend, together with proofs of the specified properties.

Modelling conventions:

* Document ids are modelled as natural numbers; the `toString` comparisons
  the source performs on ids are modelled as equality of the ids, and a
  populated reference behaves as the referenced document (the data layer
  is modelled abstractly, as the spec places the document store out of
  scope).
* JS numbers holding prices, quantities and counters are modelled as `Nat`;
  all of them are validated non-negative at the boundary and no claim
  depends on float rounding.  The quantity sent to the update endpoint is
  an `Int` because the source compares it against zero.
* Timestamps produced by `new Date()` are threaded as an explicit
  `now : Nat` parameter.
* The `is_expired` virtual of a product (a comparison of the expiration
  date with the current date) is modelled as the boolean value it has at
  the time of the request.
* Fields no claim mentions (`added_at`, `joined_at`, `role`, image urls,
  pagination, ...) are omitted from the records.
* A controller that answers `res.status(4xx)` does so before any `save`
  call, so an `Except.error` result leaves the stored document unchanged;
  `Controller.cartAfter` makes that reading explicit.
-/

/-- HTTP error envelope: status code and message of a non-2xx JSON answer. -/
structure ApiError where
  status : Nat
  message : String
deriving Repr, DecidableEq

/-- Updates the first element satisfying `p`, as the source does with
`findIndex` (or `find`) followed by a mutation of the found element. -/
def updateFirst (p : α → Bool) (f : α → α) : List α → List α
  | [] => []
  | x :: xs => if p x then f x :: xs else x :: updateFirst p f xs

/-- Cart lifecycle states (`cartSchema.status` enum). -/
inductive CartStatus where
  | active
  | pending
  | approved
  | rejected
  | cancelled
deriving Repr, DecidableEq

/-- One line of a cart (`cartItemSchema`). -/
structure CartItem where
  product_id : Nat
  quantity : Nat
  price_at_time : Nat
deriving Repr, DecidableEq

/-- Cart document (`cartSchema`), with the schema defaults of a new cart. -/
structure Cart where
  user_id : Nat
  items : List CartItem := []
  status : CartStatus := .active
  total_amount : Nat := 0
  total_items : Nat := 0
  notes : String := ""
  admin_notes : String := ""
  approved_by : Option Nat := none
  approved_at : Option Nat := none
  rejected_by : Option Nat := none
  rejected_at : Option Nat := none
  submitted_at : Option Nat := none
deriving Repr, DecidableEq

/-- Pre-save middleware of the cart schema: recomputes `total_items` and
`total_amount` from the items with `reduce`, and zeroes them when the
item list is empty. -/
def cartPreSave (c : Cart) : Cart :=
  if c.items.length > 0 then
    { c with
      total_items := c.items.foldl (fun total item => total + item.quantity) 0
      total_amount :=
        c.items.foldl (fun total item => total + item.price_at_time * item.quantity) 0 }
  else
    { c with total_items := 0, total_amount := 0 }

/-- Persisting a cart runs the pre-save middleware. -/
def Cart.save (c : Cart) : Cart := cartPreSave c

namespace Cart

/-- Instance method `addItem`: merge into the existing line for the
product if there is one, otherwise push a new line capturing the given
price; then save. -/
def addItem (c : Cart) (productId quantity priceAtTime : Nat) : Cart :=
  if c.items.any (fun item => item.product_id == productId) then
    Cart.save { c with
      items := updateFirst (fun item => item.product_id == productId)
        (fun item => { item with quantity := item.quantity + quantity }) c.items }
  else
    Cart.save { c with
      items := c.items ++
        [{ product_id := productId, quantity := quantity, price_at_time := priceAtTime }] }

/-- Instance method `removeItem`: drop every line of the product; then save. -/
def removeItem (c : Cart) (productId : Nat) : Cart :=
  Cart.save { c with items := c.items.filter (fun item => item.product_id != productId) }

/-- Instance method `updateItemQuantity`: if a line for the product exists,
remove it when the new quantity is not positive, otherwise overwrite its
quantity; in every case save. -/
def updateItemQuantity (c : Cart) (productId : Nat) (newQuantity : Int) : Cart :=
  if c.items.any (fun item => item.product_id == productId) then
    if newQuantity ≤ 0 then
      Cart.save { c with items := c.items.eraseP (fun item => item.product_id == productId) }
    else
      Cart.save { c with
        items := updateFirst (fun item => item.product_id == productId)
          (fun item => { item with quantity := newQuantity.toNat }) c.items }
  else
    c.save

/-- Instance method `clearCart`. -/
def clearCart (c : Cart) : Cart :=
  Cart.save { c with items := [] }

/-- Instance method `submitForApproval`. -/
def submitForApproval (c : Cart) (notes : String) (now : Nat) : Cart :=
  Cart.save { c with status := .pending, notes := notes, submitted_at := some now }

/-- Instance method `approveCart`. -/
def approveCart (c : Cart) (adminId : Nat) (adminNotes : String) (now : Nat) : Cart :=
  Cart.save { c with
    status := .approved
    admin_notes := adminNotes
    approved_by := some adminId
    approved_at := some now }

/-- Instance method `rejectCart`. -/
def rejectCart (c : Cart) (adminId : Nat) (adminNotes : String) (now : Nat) : Cart :=
  Cart.save { c with
    status := .rejected
    admin_notes := adminNotes
    rejected_by := some adminId
    rejected_at := some now }

/-- Instance method `cancelCart`. -/
def cancelCart (c : Cart) : Cart :=
  Cart.save { c with status := .cancelled }

/-- Instance method `canBeModified`. -/
def canBeModified (c : Cart) : Bool := c.status == .active

/-- Instance method `canBeProcessed`. -/
def canBeProcessed (c : Cart) : Bool := c.status == .pending

end Cart

/-- Product document, restricted to the fields the cart claims read. -/
structure Product where
  id : Nat
  name : String
  price : Nat
  quantity : Nat
  is_active : Bool
  is_expired : Bool
deriving Repr, DecidableEq

/-- Lookup by id (`Product.findById` / a populated product reference). -/
def findProduct (db : List Product) (productId : Nat) : Option Product :=
  db.find? (fun p => p.id == productId)

/-- Quantity of a product across the lines of a cart (a cart produced by
`addItem` holds at most one line per product, so this is that line). -/
def inCartQty (c : Cart) (productId : Nat) : Nat :=
  ((c.items.filter (fun item => item.product_id == productId)).map
    (fun item => item.quantity)).sum

namespace Controller

/-- Availability sweep of `getUserCart`: walks the items in order, keeps
items of products that exist, are active, unexpired and cover the line
quantity, clamps quantities above a positive stock, drops the rest, and
reports in the boolean whether anything was corrected. -/
def healItems (db : List Product) : List CartItem → List CartItem × Bool
  | [] => ([], false)
  | item :: rest =>
    let restResult := healItems db rest
    match findProduct db item.product_id with
    | some product =>
      if product.is_active && !product.is_expired then
        if item.quantity ≤ product.quantity then
          (item :: restResult.1, restResult.2)
        else if product.quantity > 0 then
          ({ item with quantity := product.quantity } :: restResult.1, true)
        else
          (restResult.1, true)
      else
        (restResult.1, true)
    | none => (restResult.1, true)

/-- Answer of the fetch-cart endpoint: the cart sent back, the optional
notice, and whether a corrected cart was written back to the store. -/
structure FetchOutcome where
  cart : Cart
  notice : Option String
  persisted : Bool
deriving Repr, DecidableEq

/-- Controller `getUserCart`: lazily creates an empty active cart, runs
the availability sweep, persists the corrected cart when something
changed and then surfaces the cart-updated notice. -/
def getUserCart (db : List Product) (cart0 : Option Cart) (userId : Nat) : FetchOutcome :=
  let cart :=
    match cart0 with
    | some c => c
    | none => Cart.save { user_id := userId }
  let healed := healItems db cart.items
  if healed.2 then
    { cart := Cart.save { cart with items := healed.1 }
      notice := some "Cart updated due to product availability changes"
      persisted := true }
  else
    { cart := cart, notice := none, persisted := false }

/-- Controller `addToCart`: product existence, activity, expiration and
stock checks (including the stock already held by the cart line), then
`Cart.addItem` with the price captured now. -/
def addToCart (db : List Product) (cart0 : Option Cart) (userId productId quantity : Nat) :
    Except ApiError (String × Cart) :=
  match findProduct db productId with
  | none => .error { status := 404, message := "Product not found" }
  | some product =>
    if !product.is_active then
      .error { status := 400, message := "Product is not active" }
    else if product.is_expired then
      .error { status := 400, message := "Product has expired" }
    else if product.quantity < quantity then
      .error { status := 400,
               message := "Only " ++ toString product.quantity ++ " items available in stock" }
    else
      let cart := cart0.getD { user_id := userId }
      let currentQuantityInCart :=
        ((cart.items.find? (fun item => item.product_id == productId)).map
          (fun item => item.quantity)).getD 0
      if currentQuantityInCart + quantity > product.quantity then
        .error { status := 400,
                 message := "Cannot add " ++ toString quantity ++ " items. Only " ++
                   toString (product.quantity - currentQuantityInCart) ++
                   " more items available" }
      else
        .ok ("Item added to cart successfully", cart.addItem productId quantity product.price)

/-- Controller `updateCartItem` on the active cart of the user: a
non-positive quantity removes the line, otherwise the product is fetched,
the quantity checked against stock, and the line overwritten. -/
def updateCartItem (db : List Product) (cart0 : Option Cart) (productId : Nat)
    (quantity : Int) : Except ApiError (String × Cart) :=
  match cart0 with
  | none => .error { status := 404, message := "Cart not found" }
  | some cart =>
    if !cart.canBeModified then
      .error { status := 400, message := "Cart cannot be modified in its current status" }
    else if quantity ≤ 0 then
      .ok ("Item removed from cart", cart.removeItem productId)
    else
      match findProduct db productId with
      | none => .error { status := 404, message := "Product not found" }
      | some product =>
        if (product.quantity : Int) < quantity then
          .error { status := 400,
                   message := "Only " ++ toString product.quantity ++
                     " items available in stock" }
        else
          .ok ("Cart item updated successfully", cart.updateItemQuantity productId quantity)

/-- Controller `removeFromCart`. -/
def removeFromCart (cart0 : Option Cart) (productId : Nat) :
    Except ApiError (String × Cart) :=
  match cart0 with
  | none => .error { status := 404, message := "Cart not found" }
  | some cart =>
    if !cart.canBeModified then
      .error { status := 400, message := "Cart cannot be modified in its current status" }
    else
      .ok ("Item removed from cart successfully", cart.removeItem productId)

/-- Controller `clearCart`. -/
def clearCart (cart0 : Option Cart) : Except ApiError (String × Cart) :=
  match cart0 with
  | none => .error { status := 404, message := "Cart not found" }
  | some cart =>
    if !cart.canBeModified then
      .error { status := 400, message := "Cart cannot be modified in its current status" }
    else
      .ok ("Cart cleared successfully", cart.clearCart)

/-- Submit-time revalidation loop of `submitCart`: first failing item
decides the error, products are re-read from the store. -/
def submitValidate (db : List Product) : List CartItem → Option ApiError
  | [] => none
  | item :: rest =>
    match findProduct db item.product_id with
    | none =>
      some { status := 400,
             message := "Product " ++ toString item.product_id ++ " is no longer available" }
    | some product =>
      if !product.is_active || product.is_expired then
        some { status := 400,
               message := "Product " ++ toString item.product_id ++ " is no longer available" }
      else if product.quantity < item.quantity then
        some { status := 400,
               message := "Insufficient stock for product " ++ product.name ++ ". Only " ++
                 toString product.quantity ++ " available" }
      else
        submitValidate db rest

/-- Controller `submitCart`: empty-cart check, status check, per-item
revalidation, then `Cart.submitForApproval`. -/
def submitCart (db : List Product) (cart0 : Option Cart) (notes : String) (now : Nat) :
    Except ApiError (String × Cart) :=
  match cart0 with
  | none => .error { status := 404, message := "Cart not found" }
  | some cart =>
    if cart.items.length == 0 then
      .error { status := 400, message := "Cannot submit empty cart" }
    else if !cart.canBeModified then
      .error { status := 400, message := "Cart cannot be submitted in its current status" }
    else
      match submitValidate db cart.items with
      | some e => .error e
      | none =>
        .ok ("Cart submitted for approval successfully", cart.submitForApproval notes now)

/-- Approval-time revalidation loop of `approveCart`; the populated
product reference is modelled as the stored product document. -/
def approveValidate (db : List Product) : List CartItem → Option ApiError
  | [] => none
  | item :: rest =>
    match findProduct db item.product_id with
    | none =>
      some { status := 400, message := "Product Unknown is no longer available" }
    | some product =>
      if !product.is_active || product.is_expired then
        some { status := 400,
               message := "Product " ++ product.name ++ " is no longer available" }
      else if product.quantity < item.quantity then
        some { status := 400,
               message := "Insufficient stock for product " ++ product.name ++ ". Only " ++
                 toString product.quantity ++ " available" }
      else
        approveValidate db rest

/-- Controller `approveCart` (admin): status must be pending, every item
is revalidated a third time, then `Cart.approveCart` records the admin,
the notes and the timestamp. -/
def approveCart (db : List Product) (cart0 : Option Cart) (adminId : Nat)
    (adminNotes : String) (now : Nat) : Except ApiError (String × Cart) :=
  match cart0 with
  | none => .error { status := 404, message := "Cart not found" }
  | some cart =>
    if !cart.canBeProcessed then
      .error { status := 400, message := "Cart cannot be processed in its current status" }
    else
      match approveValidate db cart.items with
      | some e => .error e
      | none =>
        .ok ("Cart approved successfully", cart.approveCart adminId adminNotes now)

/-- Controller `rejectCart` (admin): status must be pending; no
revalidation. -/
def rejectCart (cart0 : Option Cart) (adminId : Nat) (adminNotes : String) (now : Nat) :
    Except ApiError (String × Cart) :=
  match cart0 with
  | none => .error { status := 404, message := "Cart not found" }
  | some cart =>
    if !cart.canBeProcessed then
      .error { status := 400, message := "Cart cannot be processed in its current status" }
    else
      .ok ("Cart rejected successfully", cart.rejectCart adminId adminNotes now)

/-- Controller `cancelCart` (owner): forbidden on foreign carts, rejected
on already cancelled and on approved carts. -/
def cancelCart (cart0 : Option Cart) (requestUserId : Nat) :
    Except ApiError (String × Cart) :=
  match cart0 with
  | none => .error { status := 404, message := "Cart not found" }
  | some cart =>
    if cart.user_id ≠ requestUserId then
      .error { status := 403, message := "You can only cancel your own cart" }
    else if cart.status == .cancelled then
      .error { status := 400, message := "Cart is already cancelled" }
    else if cart.status == .approved then
      .error { status := 400, message := "Cannot cancel approved cart" }
    else
      .ok ("Cart cancelled successfully", cart.cancelCart)

/-- Stored cart after a controller call: every error answer is produced
before any `save`, so the stored document is then the one fetched. -/
def cartAfter (stored : Cart) : Except ApiError (String × Cart) → Cart
  | .ok r => r.2
  | .error _ => stored

end Controller

/-- Status of one join record of a group (and of the group approval). -/
inductive JoinStatus where
  | pending
  | approved
  | rejected
deriving Repr, DecidableEq

/-- One embedded join record of a group (`joined_users` entry). -/
structure JoinRecord where
  user_id : Nat
  status : JoinStatus
deriving Repr, DecidableEq

/-- Group document, restricted to the fields the membership claims read
(named `GroupDoc` because `Group` is taken by the algebra library). -/
structure GroupDoc where
  group_admin : Nat
  is_active : Bool
  is_private : Bool
  approval_status : JoinStatus
  members_count : Nat
  joined_users : List JoinRecord
deriving Repr, DecidableEq

/-- Number of approved join records, the filter-and-count the source
performs after membership changes. -/
def countApproved (records : List JoinRecord) : Nat :=
  (records.filter (fun record => record.status == .approved)).length

namespace Controller

/-- Controller `joinGroup`: the group must be active and approved, the
user must hold no join record yet; a private group stores a pending
record, a public one an approved record, and only in the approved case
the member counter is recomputed. -/
def joinGroup (group0 : Option GroupDoc) (userId : Nat) : Except ApiError GroupDoc :=
  match group0 with
  | none => .error { status := 404, message := "Group not found" }
  | some group =>
    if !(group.is_active && group.approval_status == .approved) then
      .error { status := 400, message := "Group is not active or not approved" }
    else if group.joined_users.any (fun join => join.user_id == userId) then
      .error { status := 400, message := "You have already joined this group" }
    else
      let joinStatus : JoinStatus := if group.is_private then .pending else .approved
      let joined := group.joined_users ++ [{ user_id := userId, status := joinStatus }]
      if joinStatus == .approved then
        .ok { group with joined_users := joined, members_count := countApproved joined }
      else
        .ok { group with joined_users := joined }

/-- Controller `approveUserJoin` (group admin): flips the join record of
the user to approved and recomputes the member counter. -/
def approveUserJoin (group0 : Option GroupDoc) (currentUserId targetUserId : Nat) :
    Except ApiError GroupDoc :=
  match group0 with
  | none => .error { status := 404, message := "Group not found" }
  | some group =>
    if group.group_admin ≠ currentUserId then
      .error { status := 403,
               message := "Not authorized. Only group admin can approve join requests." }
    else
      match group.joined_users.find? (fun join => join.user_id == targetUserId) with
      | none => .error { status := 404, message := "Join request not found" }
      | some joinRequest =>
        if joinRequest.status == .approved then
          .error { status := 400, message := "User is already approved" }
        else
          let joined := updateFirst (fun join => join.user_id == targetUserId)
            (fun join => { join with status := .approved }) group.joined_users
          .ok { group with joined_users := joined, members_count := countApproved joined }

/-- Controller `rejectUserJoin` (group admin): flips the join record of
the user to rejected; the member counter is not touched. -/
def rejectUserJoin (group0 : Option GroupDoc) (currentUserId targetUserId : Nat) :
    Except ApiError GroupDoc :=
  match group0 with
  | none => .error { status := 404, message := "Group not found" }
  | some group =>
    if group.group_admin ≠ currentUserId then
      .error { status := 403,
               message := "Not authorized. Only group admin can reject join requests." }
    else
      match group.joined_users.find? (fun join => join.user_id == targetUserId) with
      | none => .error { status := 404, message := "Join request not found" }
      | some _ =>
        .ok { group with
          joined_users := updateFirst (fun join => join.user_id == targetUserId)
            (fun join => { join with status := .rejected }) group.joined_users }

end Controller

/-- Product image document (`productImageSchema`), restricted to the
fields the primary-flag claim reads. -/
structure PImage where
  id : Nat
  product_id : Nat
  is_primary : Bool
  is_active : Bool
deriving Repr, DecidableEq

/-- Static `setPrimaryImage`: `updateMany` clears the primary flag of
every image of the product, then `findByIdAndUpdate` raises it on the
image with the given id. -/
def setPrimaryImage (db : List PImage) (imageId productId : Nat) : List PImage :=
  let cleared := db.map (fun image =>
    if image.product_id == productId then { image with is_primary := false } else image)
  cleared.map (fun image =>
    if image.id == imageId then { image with is_primary := true } else image)

/-- Characters the slug derivation keeps: the complement of the removed
character class (all but ASCII letters, digits and whitespace). -/
def keepChar (c : Char) : Bool := c.isAlpha || c.isDigit || c.isWhitespace

/-- Replacement of every maximal whitespace run by one hyphen; the flag
records whether the run being read has already produced its hyphen. -/
def collapseWs : Bool → List Char → List Char
  | _, [] => []
  | inRun, c :: rest =>
    if c.isWhitespace then
      if inRun then collapseWs true rest
      else '-' :: collapseWs true rest
    else
      c :: collapseWs false rest

/-- JS string trim, dropping whitespace at both ends. -/
def jsTrim (l : List Char) : List Char :=
  ((l.dropWhile Char.isWhitespace).reverse.dropWhile Char.isWhitespace).reverse

/-- Base slug derivation every schema shares: lowercase the display name,
strip every character that is not alphanumeric or whitespace, turn each
whitespace run into one hyphen, trim. -/
def slugify (name : String) : String :=
  String.mk (jsTrim (collapseWs false ((name.data.map Char.toLower).filter keepChar)))

/-- Pre-save hook of the category schema: the derived slug alone, with no
collision handling. -/
def categorySlug (name : String) : String := slugify name

/-- Decimal rendering of the suffix counter of the slug template literal,
written over the digit list of the number. -/
def natDecimal (n : Nat) : String :=
  if n = 0 then "0" else String.mk (((Nat.digits 10 n).map Nat.digitChar).reverse)

/-- Collision loop of the product, group, service and blog pre-save hooks:
while the candidate is taken, try the base slug with `-1`, `-2`, ...
appended.  The while loop is modelled with enough fuel to clear the
finite set of existing slugs. -/
def resolveSlugAux (existing : List String) (base : String) :
    Nat → String → Nat → String
  | 0, slug, _ => slug
  | fuel + 1, slug, counter =>
    if existing.contains slug then
      resolveSlugAux existing base fuel (base ++ "-" ++ natDecimal counter) (counter + 1)
    else
      slug

/-- Pre-save hook of the product, group, service and blog schemas:
derive the base slug from the name and resolve collisions with the
numeric suffix loop. -/
def uniqueSlug (existing : List String) (name : String) : String :=
  resolveSlugAux existing (slugify name) (existing.length + 1) (slugify name) 1

/-- Candidates the collision loop inspects, in order, the element kept on
fuel exhaustion included. -/
def slugCandidates (base : String) : Nat → String → Nat → List String
  | 0, slug, _ => [slug]
  | fuel + 1, slug, counter =>
    slug :: slugCandidates base fuel (base ++ "-" ++ natDecimal counter) (counter + 1)

/-- Character class of a finished slug: lowercase letter, digit or hyphen. -/
def isSlugChar (c : Char) : Bool := c.isLower || c.isDigit || c == '-'

/-! Basic facts about saving: the pre-save middleware only rewrites the
two derived totals. -/

theorem save_items (c : Cart) : (Cart.save c).items = c.items := by
  unfold Cart.save cartPreSave; split <;> rfl

theorem save_status (c : Cart) : (Cart.save c).status = c.status := by
  unfold Cart.save cartPreSave; split <;> rfl

theorem save_notes (c : Cart) : (Cart.save c).notes = c.notes := by
  unfold Cart.save cartPreSave; split <;> rfl

theorem save_admin_notes (c : Cart) : (Cart.save c).admin_notes = c.admin_notes := by
  unfold Cart.save cartPreSave; split <;> rfl

theorem save_approved_by (c : Cart) : (Cart.save c).approved_by = c.approved_by := by
  unfold Cart.save cartPreSave; split <;> rfl

theorem save_approved_at (c : Cart) : (Cart.save c).approved_at = c.approved_at := by
  unfold Cart.save cartPreSave; split <;> rfl

theorem save_submitted_at (c : Cart) : (Cart.save c).submitted_at = c.submitted_at := by
  unfold Cart.save cartPreSave; split <;> rfl

theorem foldl_add_eq_sum (f : α → Nat) (l : List α) (a : Nat) :
    l.foldl (fun t x => t + f x) a = a + (l.map f).sum := by
  induction l generalizing a with
  | nil => simp
  | cons x xs ih => simp [ih, Nat.add_assoc]

/-- Derived-totals invariant of the spec: the stored totals are the sums
over the line items. -/
def totalsOk (c : Cart) : Prop :=
  c.total_amount = (c.items.map (fun item => item.price_at_time * item.quantity)).sum ∧
  c.total_items = (c.items.map (fun item => item.quantity)).sum

theorem save_totalsOk (c : Cart) : totalsOk (Cart.save c) := by
  unfold Cart.save cartPreSave totalsOk
  split
  · constructor <;> simp [foldl_add_eq_sum]
  · rename_i h
    have hnil : c.items = [] := by
      cases hc : c.items with
      | nil => rfl
      | cons a l => rw [hc] at h; simp at h
    constructor <;> simp [hnil]

/-- C1: for every cart, after every persisting mutation (add item, update
quantity, remove, clear, submit, approve, reject, cancel) the stored
`total_amount` is the sum of `price_at_time` times `quantity` over the
items and `total_items` is the sum of the quantities, and saving a cart
whose item list is empty stores totals zero. -/
theorem cart_totals_recomputed_on_every_save
    (c : Cart) (productId quantity priceAtTime adminId now : Nat)
    (newQuantity : Int) (notes adminNotes : String) :
    totalsOk (c.addItem productId quantity priceAtTime) ∧
    totalsOk (c.updateItemQuantity productId newQuantity) ∧
    totalsOk (c.removeItem productId) ∧
    totalsOk c.clearCart ∧
    totalsOk (c.submitForApproval notes now) ∧
    totalsOk (c.approveCart adminId adminNotes now) ∧
    totalsOk (c.rejectCart adminId adminNotes now) ∧
    totalsOk c.cancelCart ∧
    (Cart.save { c with items := [] }).total_amount = 0 ∧
    (Cart.save { c with items := [] }).total_items = 0 := by
  refine ⟨?_, ?_, ?_, ?_, ?_, ?_, ?_, ?_, ?_, ?_⟩
  · unfold Cart.addItem; split <;> exact save_totalsOk _
  · unfold Cart.updateItemQuantity
    split
    · split <;> exact save_totalsOk _
    · exact save_totalsOk _
  · exact save_totalsOk _
  · exact save_totalsOk _
  · exact save_totalsOk _
  · exact save_totalsOk _
  · exact save_totalsOk _
  · exact save_totalsOk _
  · exact ((save_totalsOk { c with items := [] }).1).trans (by simp [save_items])
  · exact ((save_totalsOk { c with items := [] }).2).trans (by simp [save_items])

/-! Membership counting. -/

/-- Invariant of the spec: the stored member counter is the number of
approved join records. -/
def membersCountOk (g : GroupDoc) : Prop :=
  g.members_count = countApproved g.joined_users

theorem countApproved_append_pending (l : List JoinRecord) (u : Nat) :
    countApproved (l ++ [{ user_id := u, status := .pending }]) = countApproved l := by
  simp [countApproved, List.filter_append]

theorem countApproved_updateFirst_reject (p : JoinRecord → Bool) (l : List JoinRecord)
    (h : ∀ j ∈ l, p j = true → j.status ≠ .approved) :
    countApproved (updateFirst p (fun j => { j with status := .rejected }) l) =
      countApproved l := by
  induction l with
  | nil => rfl
  | cons x xs ih =>
    have hxs := ih (fun j hj hpj => h j (List.mem_cons_of_mem x hj) hpj)
    simp only [countApproved] at hxs
    by_cases hp : p x = true
    · have hx : x.status ≠ JoinStatus.approved := h x (List.mem_cons_self x xs) hp
      simp [updateFirst, hp, countApproved, List.filter_cons, beq_iff_eq, hx]
    · have hpf : p x = false := by simpa using hp
      simp only [updateFirst, hpf, Bool.false_eq_true, if_false, countApproved,
        List.filter_cons]
      split <;> simp [hxs]

/-- Concrete group with one approved member and a consistent counter. -/
def groupOneApproved : GroupDoc :=
  { group_admin := 1
    is_active := true
    is_private := true
    approval_status := .approved
    members_count := 1
    joined_users := [{ user_id := 2, status := .approved }] }

/-- Stored state after the group admin rejects that member. -/
def groupOneRejected : GroupDoc :=
  { groupOneApproved with joined_users := [{ user_id := 2, status := .rejected }] }

/-- C2 counterexample: rejecting a join request does not recompute
`members_count`; on a group whose single join record is approved and
whose counter is consistent, the admin rejecting that record leaves the
counter at one while the approved count drops to zero. -/
theorem members_count_reject_drifts :
    Controller.rejectUserJoin (some groupOneApproved) 1 2 = .ok groupOneRejected ∧
    membersCountOk groupOneApproved ∧
    ¬ membersCountOk groupOneRejected := by
  refine ⟨by rfl, by simp [membersCountOk, groupOneApproved, countApproved], ?_⟩
  simp [membersCountOk, groupOneRejected, groupOneApproved, countApproved]

/-- C2 amended: a join of a public group is auto-approved and recomputes
`members_count`, so afterwards the counter equals the number of approved
join records even if the equality did not hold before; a join of a
private group adds a pending record and leaves the counter unchanged,
preserving the equality when it held before; the admin approval
recomputes the counter unconditionally; the reject operation does not
recompute it and preserves the equality only when no join record of the
rejected user was approved. -/
theorem members_count_recompute_amended
    (g g1 g2 g3 g4 : GroupDoc) (userId adminId targetId : Nat) :
    (Controller.joinGroup (some g) userId = .ok g1 → g.is_private = false →
      membersCountOk g1) ∧
    (Controller.joinGroup (some g) userId = .ok g2 → g.is_private = true →
      membersCountOk g → membersCountOk g2) ∧
    (Controller.approveUserJoin (some g) adminId targetId = .ok g3 →
      membersCountOk g3) ∧
    (Controller.rejectUserJoin (some g) adminId targetId = .ok g4 →
      membersCountOk g →
      (∀ j ∈ g.joined_users, j.user_id = targetId → j.status ≠ .approved) →
      membersCountOk g4) := by
  refine ⟨?_, ?_, ?_, ?_⟩
  · intro h hpub
    simp only [Controller.joinGroup] at h
    split at h
    · exact absurd h (by simp)
    · split at h
      · exact absurd h (by simp)
      · simp only [hpub, Bool.false_eq_true, if_false] at h
        simp only [show (JoinStatus.approved == JoinStatus.approved) = true from rfl,
          if_true, Except.ok.injEq] at h
        subst h
        simp [membersCountOk]
  · intro h hpriv hg
    simp only [Controller.joinGroup] at h
    split at h
    · exact absurd h (by simp)
    · split at h
      · exact absurd h (by simp)
      · simp only [hpriv, if_true] at h
        simp only [show (JoinStatus.pending == JoinStatus.approved) = false from rfl,
          Bool.false_eq_true, if_false, Except.ok.injEq] at h
        subst h
        simp only [membersCountOk] at hg ⊢
        simp [countApproved_append_pending, hg]
  · intro h
    simp only [Controller.approveUserJoin] at h
    split at h
    · exact absurd h (by simp)
    · split at h
      · exact absurd h (by simp)
      · split at h
        · exact absurd h (by simp)
        · simp only [Except.ok.injEq] at h
          subst h
          simp [membersCountOk]
  · intro h hg hnotapp
    simp only [Controller.rejectUserJoin] at h
    split at h
    · exact absurd h (by simp)
    · split at h
      · exact absurd h (by simp)
      · simp only [Except.ok.injEq] at h
        subst h
        simp only [membersCountOk] at hg ⊢
        rw [countApproved_updateFirst_reject]
        · exact hg
        · intro j hj hpj
          exact hnotapp j hj (by simpa using hpj)

/-- Witness for the amended C2 theorem: a public-group join repairs a
drifted counter of five down to the recomputed two approved records; a
private-group join, an admin approval and an admin rejection of a
pending request each leave the counter equal to the approved count. -/
theorem members_count_recompute_amended_witness :
    membersCountOk
      { group_admin := 1, is_active := true, is_private := false,
        approval_status := .approved, members_count := 2,
        joined_users := [{ user_id := 2, status := .approved },
                         { user_id := 3, status := .approved }] } ∧
    membersCountOk
      { group_admin := 1, is_active := true, is_private := true,
        approval_status := .approved, members_count := 1,
        joined_users := [{ user_id := 2, status := .approved },
                         { user_id := 3, status := .pending }] } ∧
    membersCountOk
      { group_admin := 1, is_active := true, is_private := true,
        approval_status := .approved, members_count := 2,
        joined_users := [{ user_id := 2, status := .approved },
                         { user_id := 3, status := .approved }] } ∧
    membersCountOk
      { group_admin := 1, is_active := true, is_private := true,
        approval_status := .approved, members_count := 1,
        joined_users := [{ user_id := 2, status := .approved },
                         { user_id := 3, status := .rejected }] } := by
  refine ⟨?_, ?_, ?_, ?_⟩
  · exact (members_count_recompute_amended
      { group_admin := 1, is_active := true, is_private := false,
        approval_status := .approved, members_count := 5,
        joined_users := [{ user_id := 2, status := .approved }] }
      { group_admin := 1, is_active := true, is_private := false,
        approval_status := .approved, members_count := 2,
        joined_users := [{ user_id := 2, status := .approved },
                         { user_id := 3, status := .approved }] }
      groupOneApproved groupOneApproved groupOneApproved 3 0 0).1
      (by rfl) (by rfl)
  · exact (members_count_recompute_amended
      { group_admin := 1, is_active := true, is_private := true,
        approval_status := .approved, members_count := 1,
        joined_users := [{ user_id := 2, status := .approved }] }
      groupOneApproved
      { group_admin := 1, is_active := true, is_private := true,
        approval_status := .approved, members_count := 1,
        joined_users := [{ user_id := 2, status := .approved },
                         { user_id := 3, status := .pending }] }
      groupOneApproved groupOneApproved 3 0 0).2.1
      (by rfl) (by rfl) (by simp [membersCountOk, countApproved])
  · exact (members_count_recompute_amended
      { group_admin := 1, is_active := true, is_private := true,
        approval_status := .approved, members_count := 1,
        joined_users := [{ user_id := 2, status := .approved },
                         { user_id := 3, status := .pending }] }
      groupOneApproved groupOneApproved
      { group_admin := 1, is_active := true, is_private := true,
        approval_status := .approved, members_count := 2,
        joined_users := [{ user_id := 2, status := .approved },
                         { user_id := 3, status := .approved }] }
      groupOneApproved 0 1 3).2.2.1 (by rfl)
  · exact (members_count_recompute_amended
      { group_admin := 1, is_active := true, is_private := true,
        approval_status := .approved, members_count := 1,
        joined_users := [{ user_id := 2, status := .approved },
                         { user_id := 3, status := .pending }] }
      groupOneApproved groupOneApproved groupOneApproved
      { group_admin := 1, is_active := true, is_private := true,
        approval_status := .approved, members_count := 1,
        joined_users := [{ user_id := 2, status := .approved },
                         { user_id := 3, status := .rejected }] }
      0 1 3).2.2.2 (by rfl) (by simp [membersCountOk, countApproved])
      (by decide)
/-! Stock checking at add time. -/

theorem first_qty_eq_sum (items : List CartItem) (productId : Nat)
    (hnodup : (items.map CartItem.product_id).Nodup) :
    ((items.find? (fun item => item.product_id == productId)).map
      (fun item => item.quantity)).getD 0 =
    ((items.filter (fun item => item.product_id == productId)).map
      (fun item => item.quantity)).sum := by
  induction items with
  | nil => rfl
  | cons x xs ih =>
    simp only [List.map_cons, List.nodup_cons] at hnodup
    by_cases hx : (x.product_id == productId) = true
    · have hxpid : x.product_id = productId := by simpa using hx
      have htail : xs.filter (fun item => item.product_id == productId) = [] := by
        rw [List.filter_eq_nil_iff]
        intro a ha hab
        exact hnodup.1 (List.mem_map.mpr
          ⟨a, ha, by rw [show a.product_id = productId from by simpa using hab, hxpid]⟩)
      simp [List.find?_cons, List.filter_cons, hx, htail]
    · have hxf : (x.product_id == productId) = false := by simpa using hx
      simp only [List.find?_cons, List.filter_cons, hxf, Bool.false_eq_true, if_false]
      exact ih hnodup.2

/-- C3: on an active cart whose lines carry distinct products, a request
to add a quantity that together with the quantity already in the cart
exceeds the current stock of the product is answered with a 400
business-rule error, and the stored cart is exactly as before the call. -/
theorem addToCart_rejects_insufficient_stock
    (db : List Product) (c : Cart) (userId productId quantity : Nat) (p : Product)
    (hstatus : c.status = .active)
    (hnodup : (c.items.map CartItem.product_id).Nodup)
    (hq : 1 ≤ quantity)
    (hp : findProduct db productId = some p)
    (hover : p.quantity < inCartQty c productId + quantity) :
    (∃ e : ApiError, Controller.addToCart db (some c) userId productId quantity =
      .error e ∧ e.status = 400) ∧
    Controller.cartAfter c (Controller.addToCart db (some c) userId productId quantity) = c := by
  have hfirst := first_qty_eq_sum c.items productId hnodup
  by_cases h1 : p.is_active = true
  · by_cases h2 : p.is_expired = true
    · simp only [Controller.addToCart, hp, h1, h2, Bool.not_true, Bool.false_eq_true,
        if_false, if_true]
      exact ⟨⟨_, rfl, rfl⟩, rfl⟩
    · rw [Bool.not_eq_true] at h2
      by_cases h3 : p.quantity < quantity
      · simp only [Controller.addToCart, hp, h1, h2, Bool.not_true, Bool.false_eq_true,
          if_false, if_true, h3]
        exact ⟨⟨_, rfl, rfl⟩, rfl⟩
      · have h4 : ((c.items.find? (fun item => item.product_id == productId)).map
            (fun item => item.quantity)).getD 0 + quantity > p.quantity := by
          rw [hfirst]
          exact hover
        simp only [Controller.addToCart, hp, h1, h2, Bool.not_true, Bool.false_eq_true,
          if_false, if_true, h3, Option.getD_some, gt_iff_lt, h4]
        exact ⟨⟨_, rfl, rfl⟩, rfl⟩
  · rw [Bool.not_eq_true] at h1
    simp only [Controller.addToCart, hp, h1, Bool.not_false, if_true]
    exact ⟨⟨_, rfl, rfl⟩, rfl⟩

/-- Product with five in stock, the stock figure of the worked example. -/
def productStock5 : Product :=
  { id := 7, name := "Widget", price := 10, quantity := 5,
    is_active := true, is_expired := false }

/-- Active cart already holding three of that product. -/
def cartWith3 : Cart :=
  { user_id := 1
    items := [{ product_id := 7, quantity := 3, price_at_time := 10 }]
    total_amount := 30
    total_items := 3 }

/-- Witness for C3, the worked example of the spec: stock five, three in
the cart, adding four fails with the only-two-more-available message and
the stored cart still holds three at unchanged totals and status. -/
theorem addToCart_rejects_insufficient_stock_witness :
    (∃ e : ApiError, Controller.addToCart [productStock5] (some cartWith3) 1 7 4 =
      .error e ∧ e.status = 400) ∧
    Controller.cartAfter cartWith3 (Controller.addToCart [productStock5] (some cartWith3) 1 7 4) =
      cartWith3 ∧
    Controller.addToCart [productStock5] (some cartWith3) 1 7 4 =
      .error { status := 400,
               message := "Cannot add 4 items. Only 2 more items available" } ∧
    inCartQty
      (Controller.cartAfter cartWith3
        (Controller.addToCart [productStock5] (some cartWith3) 1 7 4)) 7 = 3 := by
  have h := addToCart_rejects_insufficient_stock [productStock5] cartWith3 1 7 4 productStock5
    (by rfl) (by decide) (by decide) (by rfl) (by decide)
  exact ⟨h.1, h.2, by rfl, by rw [h.2]; decide⟩

/-! Submission. -/

/-- Availability of one line at validation time: the product exists, is
active, unexpired, and its stock covers the line quantity. -/
def itemAvailable (db : List Product) (item : CartItem) : Prop :=
  ∃ p, findProduct db item.product_id = some p ∧ p.is_active = true ∧
    p.is_expired = false ∧ item.quantity ≤ p.quantity

theorem submitValidate_none (db : List Product) (items : List CartItem)
    (hall : ∀ item ∈ items, itemAvailable db item) :
    Controller.submitValidate db items = none := by
  induction items with
  | nil => rfl
  | cons x xs ih =>
    obtain ⟨p, hp, hact, hexp, hqty⟩ := hall x (List.mem_cons_self x xs)
    simp only [Controller.submitValidate, hp, hact, hexp, Bool.not_true,
      Bool.false_or, Bool.false_eq_true, if_false, Nat.not_lt.mpr hqty]
    exact ih (fun item hi => hall item (List.mem_cons_of_mem x hi))

/-- C4: submitting an active cart with no items always fails with a 400
business-rule error and leaves the stored cart unchanged; submitting an
active cart whose items are all available succeeds, sets the status to
pending, stamps `submitted_at` with the current time and stores the
user notes. -/
theorem submitCart_spec
    (db : List Product) (c : Cart) (notes : String) (now : Nat)
    (hstatus : c.status = .active) :
    (c.items = [] →
      Controller.submitCart db (some c) notes now =
        .error { status := 400, message := "Cannot submit empty cart" } ∧
      Controller.cartAfter c (Controller.submitCart db (some c) notes now) = c) ∧
    (c.items ≠ [] → (∀ item ∈ c.items, itemAvailable db item) →
      Controller.submitCart db (some c) notes now =
        .ok ("Cart submitted for approval successfully", c.submitForApproval notes now) ∧
      (c.submitForApproval notes now).status = .pending ∧
      (c.submitForApproval notes now).submitted_at = some now ∧
      (c.submitForApproval notes now).notes = notes) := by
  constructor
  · intro hnil
    have : Controller.submitCart db (some c) notes now =
        .error { status := 400, message := "Cannot submit empty cart" } := by
      simp [Controller.submitCart, hnil]
    exact ⟨this, by rw [this]; rfl⟩
  · intro hne hall
    have hlen : (c.items.length == 0) = false := by
      simp [List.length_eq_zero, hne]
    have hmod : (!c.canBeModified) = false := by
      simp [Cart.canBeModified, hstatus]
    have hv := submitValidate_none db c.items hall
    refine ⟨?_, ?_, ?_, ?_⟩
    · simp only [Controller.submitCart, hlen, Bool.false_eq_true, if_false, hmod, hv]
    · rw [Cart.submitForApproval, save_status]
    · rw [Cart.submitForApproval, save_submitted_at]
    · rw [Cart.submitForApproval, save_notes]

/-- Witness for C4: the empty active cart cannot be submitted; a one-line
cart whose product is available submits to pending with the notes and
the timestamp stored. -/
theorem submitCart_spec_witness :
    (Controller.submitCart [productStock5] (some { user_id := 1 }) "n" 42 =
      .error { status := 400, message := "Cannot submit empty cart" } ∧
      Controller.cartAfter { user_id := 1 }
        (Controller.submitCart [productStock5] (some { user_id := 1 }) "n" 42) =
        { user_id := 1 }) ∧
    (Controller.submitCart [productStock5] (some cartWith3) "gift" 42 =
      .ok ("Cart submitted for approval successfully",
        cartWith3.submitForApproval "gift" 42) ∧
      (cartWith3.submitForApproval "gift" 42).status = .pending ∧
      (cartWith3.submitForApproval "gift" 42).submitted_at = some 42 ∧
      (cartWith3.submitForApproval "gift" 42).notes = "gift") := by
  constructor
  · exact (submitCart_spec [productStock5] { user_id := 1 } "n" 42 (by rfl)).1 (by rfl)
  · exact (submitCart_spec [productStock5] cartWith3 "gift" 42 (by rfl)).2
      (by decide)
      (by
        intro item hi
        simp only [cartWith3, List.mem_singleton] at hi
        exact ⟨productStock5, by rw [hi]; rfl, by rfl, by rfl, by rw [hi]; decide⟩)

/-! Approval. -/

theorem approveValidate_none (db : List Product) (items : List CartItem)
    (hall : ∀ item ∈ items, itemAvailable db item) :
    Controller.approveValidate db items = none := by
  induction items with
  | nil => rfl
  | cons x xs ih =>
    obtain ⟨p, hp, hact, hexp, hqty⟩ := hall x (List.mem_cons_self x xs)
    simp only [Controller.approveValidate, hp, hact, hexp, Bool.not_true,
      Bool.false_or, Bool.false_eq_true, if_false, Nat.not_lt.mpr hqty]
    exact ih (fun item hi => hall item (List.mem_cons_of_mem x hi))

/-- C5: the admin approval fails with a 400 business-rule error on every
cart whose status is not pending, leaving the stored cart unchanged;
on a pending cart whose items are all available it succeeds and records
the approved status, the approving admin, the admin notes and the
approval timestamp. -/
theorem approveCart_spec
    (db : List Product) (c : Cart) (adminId now : Nat) (adminNotes : String) :
    (c.status ≠ .pending →
      Controller.approveCart db (some c) adminId adminNotes now =
        .error { status := 400, message := "Cart cannot be processed in its current status" } ∧
      Controller.cartAfter c (Controller.approveCart db (some c) adminId adminNotes now) = c) ∧
    (c.status = .pending → (∀ item ∈ c.items, itemAvailable db item) →
      Controller.approveCart db (some c) adminId adminNotes now =
        .ok ("Cart approved successfully", c.approveCart adminId adminNotes now) ∧
      (c.approveCart adminId adminNotes now).status = .approved ∧
      (c.approveCart adminId adminNotes now).approved_by = some adminId ∧
      (c.approveCart adminId adminNotes now).admin_notes = adminNotes ∧
      (c.approveCart adminId adminNotes now).approved_at = some now) := by
  constructor
  · intro hne
    have hproc : (!c.canBeProcessed) = true := by
      simp [Cart.canBeProcessed, hne]
    have : Controller.approveCart db (some c) adminId adminNotes now =
        .error { status := 400, message := "Cart cannot be processed in its current status" } := by
      simp [Controller.approveCart, hproc]
    exact ⟨this, by rw [this]; rfl⟩
  · intro hpend hall
    have hproc : (!c.canBeProcessed) = false := by
      simp [Cart.canBeProcessed, hpend]
    have hv := approveValidate_none db c.items hall
    refine ⟨?_, ?_, ?_, ?_, ?_⟩
    · simp only [Controller.approveCart, hproc, Bool.false_eq_true, if_false, hv]
    · rw [Cart.approveCart, save_status]
    · rw [Cart.approveCart, save_approved_by]
    · rw [Cart.approveCart, save_admin_notes]
    · rw [Cart.approveCart, save_approved_at]

/-- Pending one-line cart used by the approval witness. -/
def pendingCart : Cart :=
  { user_id := 1
    items := [{ product_id := 7, quantity := 3, price_at_time := 10 }]
    status := .pending
    total_amount := 30
    total_items := 3 }

/-- Witness for C5: approving an active cart fails and leaves it
unchanged; approving a pending in-stock cart records everything. -/
theorem approveCart_spec_witness :
    (Controller.approveCart [productStock5] (some cartWith3) 9 "ok" 42 =
      .error { status := 400, message := "Cart cannot be processed in its current status" } ∧
      Controller.cartAfter cartWith3
        (Controller.approveCart [productStock5] (some cartWith3) 9 "ok" 42) = cartWith3) ∧
    (Controller.approveCart [productStock5] (some pendingCart) 9 "ok" 42 =
      .ok ("Cart approved successfully", pendingCart.approveCart 9 "ok" 42) ∧
      (pendingCart.approveCart 9 "ok" 42).status = .approved ∧
      (pendingCart.approveCart 9 "ok" 42).approved_by = some 9 ∧
      (pendingCart.approveCart 9 "ok" 42).admin_notes = "ok" ∧
      (pendingCart.approveCart 9 "ok" 42).approved_at = some 42) := by
  constructor
  · exact (approveCart_spec [productStock5] cartWith3 9 42 "ok").1 (by decide)
  · exact (approveCart_spec [productStock5] pendingCart 9 42 "ok").2 (by rfl)
      (by
        intro item hi
        simp only [pendingCart, List.mem_singleton] at hi
        exact ⟨productStock5, by rw [hi]; rfl, by rfl, by rfl, by rw [hi]; decide⟩)

/-! Self-healing fetch. -/

/-- Per-item rule of the claim: a line whose product is missing, inactive,
expired or out of stock is dropped; a line whose quantity exceeds a
positive stock is clamped to that stock; any other line is kept as is. -/
def healedItemSpec (db : List Product) (item : CartItem) : Option CartItem :=
  match findProduct db item.product_id with
  | none => none
  | some p =>
    if !p.is_active || p.is_expired || p.quantity == 0 then none
    else if p.quantity < item.quantity then some { item with quantity := p.quantity }
    else some item

/-- Line items the sweep leaves untouched: product present, active,
unexpired and with stock covering the line. -/
def itemIntact (db : List Product) (item : CartItem) : Bool :=
  match findProduct db item.product_id with
  | none => false
  | some p => p.is_active && !p.is_expired && decide (item.quantity ≤ p.quantity)

theorem healItems_characterization (db : List Product) (items : List CartItem)
    (hq : ∀ item ∈ items, 1 ≤ item.quantity) :
    Controller.healItems db items =
      (items.filterMap (healedItemSpec db),
       items.any (fun item => !itemIntact db item)) := by
  induction items with
  | nil => rfl
  | cons x xs ih =>
    have hx := hq x (List.mem_cons_self x xs)
    have ihh := ih (fun i hi => hq i (List.mem_cons_of_mem x hi))
    simp only [Controller.healItems, ihh, List.filterMap_cons, List.any_cons]
    cases hfind : findProduct db x.product_id with
    | none => simp [healedItemSpec, itemIntact, hfind]
    | some p =>
      by_cases hae : (p.is_active && !p.is_expired) = true
      · rw [Bool.and_eq_true, Bool.not_eq_true'] at hae
        by_cases hle : x.quantity ≤ p.quantity
        · have hq0 : (p.quantity == 0) = false := by
            have h1 : 1 ≤ p.quantity := le_trans hx hle
            simp only [beq_eq_false_iff_ne, ne_eq]
            omega
          simp [healedItemSpec, itemIntact, hfind, hae.1, hae.2, hle, hq0,
            Nat.not_lt.mpr hle]
        · rw [Nat.not_le] at hle
          by_cases hq0 : 0 < p.quantity
          · have hq0b : (p.quantity == 0) = false := by
              simp only [beq_eq_false_iff_ne, ne_eq]
              omega
            simp [healedItemSpec, itemIntact, hfind, hae.1, hae.2, hle, hq0, hq0b,
              Nat.not_le.mpr hle]
          · have hq0e : p.quantity = 0 := by omega
            have hxne : ¬(x.quantity = 0) := by omega
            simp [healedItemSpec, itemIntact, hfind, hae.1, hae.2, hq0e,
              Nat.not_le.mpr hle, hxne]
      · have hae2 : (!p.is_active || p.is_expired) = true := by
          cases hA : p.is_active <;> cases hE : p.is_expired <;> simp_all
        have haeb : (p.is_active && !p.is_expired) = false := by
          cases hA : p.is_active <;> cases hE : p.is_expired <;> simp_all
        simp [Controller.healItems, healedItemSpec, itemIntact, hfind, haeb, hae2]

theorem healedItemSpec_of_intact (db : List Product) (item : CartItem)
    (h1 : 1 ≤ item.quantity) (h2 : itemIntact db item = true) :
    healedItemSpec db item = some item := by
  unfold itemIntact at h2
  unfold healedItemSpec
  cases hfind : findProduct db item.product_id with
  | none => rw [hfind] at h2; cases h2
  | some p =>
    rw [hfind] at h2
    simp only [Bool.and_eq_true, Bool.not_eq_true', decide_eq_true_eq] at h2
    have hq0 : (p.quantity == 0) = false := by
      simp only [beq_eq_false_iff_ne, ne_eq]
      omega
    simp [h2.1.1, h2.1.2, hq0, Nat.not_lt.mpr h2.2]

theorem filterMap_some_eq_self (f : α → Option α) (l : List α)
    (h : ∀ x ∈ l, f x = some x) : l.filterMap f = l := by
  induction l with
  | nil => rfl
  | cons x xs ih =>
    rw [List.filterMap_cons, h x (List.mem_cons_self x xs),
      ih (fun y hy => h y (List.mem_cons_of_mem x hy))]

/-- C6: on every fetch of an active cart, lines of missing, inactive,
expired or out-of-stock products are removed and lines above a positive
stock are clamped to it; exactly when some line needed correction the
corrected cart is persisted and the cart-updated notice is returned,
otherwise the cart comes back unchanged with no notice. -/
theorem getUserCart_self_heals
    (db : List Product) (c : Cart) (userId : Nat)
    (hq : ∀ item ∈ c.items, 1 ≤ item.quantity) :
    (Controller.getUserCart db (some c) userId).cart.items =
      c.items.filterMap (healedItemSpec db) ∧
    ((Controller.getUserCart db (some c) userId).persisted = true ↔
      ∃ item ∈ c.items, itemIntact db item = false) ∧
    ((Controller.getUserCart db (some c) userId).persisted = true →
      (Controller.getUserCart db (some c) userId).notice =
        some "Cart updated due to product availability changes") ∧
    ((Controller.getUserCart db (some c) userId).persisted = false →
      (Controller.getUserCart db (some c) userId).cart = c ∧
      (Controller.getUserCart db (some c) userId).notice = none) := by
  have hch := healItems_characterization db c.items hq
  by_cases hany : (c.items.any fun item => !itemIntact db item) = true
  · have hres : Controller.getUserCart db (some c) userId =
        { cart := Cart.save { c with items := c.items.filterMap (healedItemSpec db) }
          notice := some "Cart updated due to product availability changes"
          persisted := true } := by
      simp [Controller.getUserCart, hch, hany]
    refine ⟨?_, ?_, ?_, ?_⟩
    · rw [hres]; exact save_items _
    · rw [hres]
      simp only [true_iff]
      simpa [Bool.not_eq_true'] using hany
    · rw [hres]; intro; rfl
    · rw [hres]; intro hfalse; cases hfalse
  · have hanyf : (c.items.any fun item => !itemIntact db item) = false := by
      simpa using hany
    have hall : ∀ item ∈ c.items, itemIntact db item = true := by
      intro item hi
      by_contra hno
      rw [Bool.not_eq_true] at hno
      rw [List.any_eq_false] at hanyf
      have := hanyf item hi
      simp [hno] at this
    have hid : c.items.filterMap (healedItemSpec db) = c.items :=
      filterMap_some_eq_self _ _
        (fun item hi => healedItemSpec_of_intact db item (hq item hi) (hall item hi))
    have hres : Controller.getUserCart db (some c) userId =
        { cart := c, notice := none, persisted := false } := by
      simp [Controller.getUserCart, hch, hanyf]
    refine ⟨?_, ?_, ?_, ?_⟩
    · rw [hres, hid]
    · rw [hres]
      constructor
      · intro hfalse; cases hfalse
      · rintro ⟨item, hi, hbad⟩
        rw [hall item hi] at hbad
        cases hbad
    · rw [hres]; intro hfalse; cases hfalse
    · rw [hres]; intro; exact ⟨rfl, rfl⟩

/-- Witness for C6: a cart holding a line of nine of the stock-five
product and a line of a vanished product is healed on fetch: the first
line is clamped to five, the second dropped, the correction is persisted
and the notice returned. -/
theorem getUserCart_self_heals_witness :
    (Controller.getUserCart [productStock5]
        (some { user_id := 1
                items := [{ product_id := 7, quantity := 9, price_at_time := 10 },
                          { product_id := 8, quantity := 1, price_at_time := 3 }] })
        1).cart.items =
      [{ product_id := 7, quantity := 9, price_at_time := 10 },
       { product_id := 8, quantity := 1, price_at_time := 3 }].filterMap
        (healedItemSpec [productStock5]) ∧
    [{ product_id := 7, quantity := 9, price_at_time := 10 },
     { product_id := 8, quantity := 1, price_at_time := 3 }].filterMap
        (healedItemSpec [productStock5]) =
      [{ product_id := 7, quantity := 5, price_at_time := 10 }] ∧
    (Controller.getUserCart [productStock5]
        (some { user_id := 1
                items := [{ product_id := 7, quantity := 9, price_at_time := 10 },
                          { product_id := 8, quantity := 1, price_at_time := 3 }] })
        1).persisted = true ∧
    (Controller.getUserCart [productStock5]
        (some { user_id := 1
                items := [{ product_id := 7, quantity := 9, price_at_time := 10 },
                          { product_id := 8, quantity := 1, price_at_time := 3 }] })
        1).notice = some "Cart updated due to product availability changes" := by
  have h := getUserCart_self_heals [productStock5]
    { user_id := 1
      items := [{ product_id := 7, quantity := 9, price_at_time := 10 },
                { product_id := 8, quantity := 1, price_at_time := 3 }] }
    1 (by decide)
  have hp : (Controller.getUserCart [productStock5]
      (some { user_id := 1
              items := [{ product_id := 7, quantity := 9, price_at_time := 10 },
                        { product_id := 8, quantity := 1, price_at_time := 3 }] })
      1).persisted = true := by decide
  exact ⟨h.1, by decide, hp, h.2.2.1 hp⟩

/-! Price protection. -/

/-- Product reference and captured price of each line, the data the
price-protection claim watches. -/
def pidPrice (items : List CartItem) : List (Nat × Nat) :=
  items.map (fun item => (item.product_id, item.price_at_time))

theorem map_updateFirst_eq (g : α → β) (p : α → Bool) (f : α → α) (l : List α)
    (h : ∀ x, g (f x) = g x) : (updateFirst p f l).map g = l.map g := by
  induction l with
  | nil => rfl
  | cons x xs ih =>
    unfold updateFirst
    split
    · simp [h x]
    · simp [ih]

theorem inCartQty_updateFirst_add (items : List CartItem) (pid q : Nat)
    (hany : (items.any fun item => item.product_id == pid) = true) :
    (((updateFirst (fun item => item.product_id == pid)
        (fun item => { item with quantity := item.quantity + q }) items).filter
      (fun item => item.product_id == pid)).map (fun item => item.quantity)).sum =
    ((items.filter (fun item => item.product_id == pid)).map
      (fun item => item.quantity)).sum + q := by
  induction items with
  | nil => cases hany
  | cons x xs ih =>
    by_cases hx : (x.product_id == pid) = true
    · simp only [updateFirst, hx, if_true]
      simp [List.filter_cons, hx]
      omega
    · have hxf : (x.product_id == pid) = false := by simpa using hx
      simp only [updateFirst, hxf, Bool.false_eq_true, if_false]
      simp only [List.any_cons, hxf, Bool.false_or] at hany
      simp [List.filter_cons, hxf, ih hany]

theorem pidPrice_healItems_sublist (db : List Product) (items : List CartItem) :
    List.Sublist (pidPrice (Controller.healItems db items).1) (pidPrice items) := by
  induction items with
  | nil => exact List.Sublist.refl _
  | cons x xs ih =>
    simp only [Controller.healItems]
    cases hfind : findProduct db x.product_id with
    | none =>
      simp only [pidPrice, List.map_cons]
      exact List.Sublist.cons _ ih
    | some p =>
      dsimp only
      by_cases h1 : (p.is_active && !p.is_expired) = true
      · rw [if_pos h1]
        by_cases h2 : x.quantity ≤ p.quantity
        · rw [if_pos h2]
          simp only [pidPrice, List.map_cons]
          exact List.Sublist.cons₂ _ ih
        · rw [if_neg h2]
          by_cases h3 : p.quantity > 0
          · rw [if_pos h3]
            simp only [pidPrice, List.map_cons]
            exact List.Sublist.cons₂ _ ih
          · rw [if_neg h3]
            simp only [pidPrice, List.map_cons]
            exact List.Sublist.cons _ ih
      · rw [if_neg h1]
        simp only [pidPrice, List.map_cons]
        exact List.Sublist.cons _ ih

/-- C7: adding more of a product already in the cart changes no product
reference and no captured price (it only grows the matching quantity by
the request); adding a product not yet in the cart appends one line with
the price passed at that moment, which the controller takes from the
product document at call time; and no other cart operation, the
self-healing fetch included, ever introduces a line reference or a
captured price that was not already present. -/
theorem price_protection
    (db : List Product) (c : Cart)
    (userId productId productId2 quantity adminId now priceAtTime : Nat)
    (newQuantity : Int) (notes adminNotes : String) (p : Product) :
    ((c.items.any fun item => item.product_id == productId) = true →
      pidPrice (c.addItem productId quantity priceAtTime).items = pidPrice c.items ∧
      inCartQty (c.addItem productId quantity priceAtTime) productId =
        inCartQty c productId + quantity) ∧
    ((c.items.any fun item => item.product_id == productId) = false →
      (c.addItem productId quantity priceAtTime).items =
        c.items ++ [{ product_id := productId, quantity := quantity,
                      price_at_time := priceAtTime }]) ∧
    (findProduct db productId = some p →
      ∀ m c1, Controller.addToCart db (some c) userId productId quantity = .ok (m, c1) →
        c1 = c.addItem productId quantity p.price) ∧
    List.Sublist (pidPrice (c.removeItem productId2).items) (pidPrice c.items) ∧
    List.Sublist (pidPrice (c.updateItemQuantity productId2 newQuantity).items) (pidPrice c.items) ∧
    List.Sublist (pidPrice c.clearCart.items) (pidPrice c.items) ∧
    pidPrice (c.submitForApproval notes now).items = pidPrice c.items ∧
    pidPrice (c.approveCart adminId adminNotes now).items = pidPrice c.items ∧
    pidPrice (c.rejectCart adminId adminNotes now).items = pidPrice c.items ∧
    pidPrice c.cancelCart.items = pidPrice c.items ∧
    List.Sublist (pidPrice (Controller.getUserCart db (some c) userId).cart.items) (pidPrice c.items) := by
  refine ⟨?_, ?_, ?_, ?_, ?_, ?_, ?_, ?_, ?_, ?_, ?_⟩
  · intro hany
    constructor
    · simp only [Cart.addItem, hany, if_true, save_items, pidPrice]
      exact map_updateFirst_eq _ _ _ _ (fun x => rfl)
    · simp only [Cart.addItem, hany, if_true, inCartQty, save_items]
      exact inCartQty_updateFirst_add c.items productId quantity hany
  · intro hany
    simp only [Cart.addItem, hany, Bool.false_eq_true, if_false, save_items]
  · intro hp m c1 h
    simp only [Controller.addToCart, hp, Option.getD_some] at h
    split at h
    · exact absurd h (by simp)
    · split at h
      · exact absurd h (by simp)
      · split at h
        · exact absurd h (by simp)
        · split at h
          · exact absurd h (by simp)
          · simp only [Except.ok.injEq, Prod.mk.injEq] at h
            exact h.2.symm
  · simp only [Cart.removeItem, save_items, pidPrice]
    exact (List.filter_sublist _).map _
  · unfold Cart.updateItemQuantity
    split
    · split
      · simp only [save_items, pidPrice]
        exact (List.eraseP_sublist _).map _
      · have hmape := map_updateFirst_eq
          (fun item => (item.product_id, item.price_at_time))
          (fun item => item.product_id == productId2)
          (fun item => { item with quantity := newQuantity.toNat })
          c.items (fun x => rfl)
        simp only [save_items, pidPrice]
        rw [hmape]
    · rw [save_items]
  · simp [Cart.clearCart, save_items, pidPrice]
  · rw [Cart.submitForApproval, save_items]
  · rw [Cart.approveCart, save_items]
  · rw [Cart.rejectCart, save_items]
  · rw [Cart.cancelCart, save_items]
  · by_cases hh : (Controller.healItems db c.items).2 = true
    · have hcart : (Controller.getUserCart db (some c) userId).cart.items =
          (Controller.healItems db c.items).1 := by
        simp [Controller.getUserCart, hh, save_items]
      rw [hcart]
      exact pidPrice_healItems_sublist db c.items
    · have hhf : (Controller.healItems db c.items).2 = false := by simpa using hh
      have hcart : (Controller.getUserCart db (some c) userId).cart = c := by
        simp [Controller.getUserCart, hhf]
      rw [hcart]

/-- Same product later offered at a different price. -/
def productPriceChanged : Product :=
  { id := 7, name := "Widget", price := 99, quantity := 50,
    is_active := true, is_expired := false }

/-- Witness for C7: merging two more units of the product into the cart
that already holds three at the captured price ten keeps the single line
at price ten even though the product now costs ninety-nine, and adding to
an empty cart captures the price passed now. -/
theorem price_protection_witness :
    pidPrice (cartWith3.addItem 7 2 99).items = [(7, 10)] ∧
    inCartQty (cartWith3.addItem 7 2 99) 7 = 5 ∧
    (({ user_id := 1 } : Cart).addItem 7 2 99).items =
      [{ product_id := 7, quantity := 2, price_at_time := 99 }] ∧
    cartWith3.addItem 7 2 99 = cartWith3.addItem 7 2 productPriceChanged.price := by
  refine ⟨?_, ?_, ?_, ?_⟩
  · exact ((price_protection [productPriceChanged] cartWith3 1 7 7 2 9 42 99 1 "" ""
      productPriceChanged).1 (by decide)).1.trans (by decide)
  · exact ((price_protection [productPriceChanged] cartWith3 1 7 7 2 9 42 99 1 "" ""
      productPriceChanged).1 (by decide)).2.trans (by decide)
  · exact ((price_protection [productPriceChanged] { user_id := 1 } 1 7 7 2 9 42 99 1 "" ""
      productPriceChanged).2.1 (by decide)).trans (by decide)
  · exact ((price_protection [productPriceChanged] cartWith3 1 7 7 2 9 42 99 1 "" ""
      productPriceChanged).2.2.1 (by rfl) "Item added to cart successfully"
      (cartWith3.addItem 7 2 99) (by rfl)).symm

/-! Updating a line the cart does not hold. -/

/-- C10: on an active cart holding no line for an existing in-stock
product, the update endpoint with a positive quantity within stock
answers success while the item list is left exactly as it was. -/
theorem updateCartItem_missing_line_noop
    (db : List Product) (c : Cart) (productId : Nat) (q : Int) (p : Product)
    (hstatus : c.status = .active)
    (habsent : ∀ item ∈ c.items, item.product_id ≠ productId)
    (hp : findProduct db productId = some p)
    (h1 : 1 ≤ q) (h2 : q ≤ (p.quantity : Int)) :
    Controller.updateCartItem db (some c) productId q =
      .ok ("Cart item updated successfully", c.updateItemQuantity productId q) ∧
    (c.updateItemQuantity productId q).items = c.items := by
  have hmod : (!c.canBeModified) = false := by simp [Cart.canBeModified, hstatus]
  have hqn : ¬(q ≤ 0) := by omega
  have hqs : ¬((p.quantity : Int) < q) := by omega
  have hanyf : (c.items.any fun item => item.product_id == productId) = false := by
    rw [List.any_eq_false]
    intro item hi
    simpa using habsent item hi
  constructor
  · simp [Controller.updateCartItem, hmod, hqn, hp, hqs]
  · simp only [Cart.updateItemQuantity, hanyf, Bool.false_eq_true, if_false, save_items]

/-- Second product, in stock, never put in the witness cart. -/
def productOther : Product :=
  { id := 8, name := "Gadget", price := 4, quantity := 9,
    is_active := true, is_expired := false }

/-- Witness for C10: updating product eight, absent from the cart holding
only product seven, reports success and changes no line. -/
theorem updateCartItem_missing_line_noop_witness :
    Controller.updateCartItem [productStock5, productOther] (some cartWith3) 8 2 =
      .ok ("Cart item updated successfully", cartWith3.updateItemQuantity 8 2) ∧
    (cartWith3.updateItemQuantity 8 2).items = cartWith3.items :=
  updateCartItem_missing_line_noop [productStock5, productOther] cartWith3 8 2 productOther
    (by rfl) (by decide) (by rfl) (by decide) (by decide)

/-! Primary image exclusivity. -/

/-- First step of `setPrimaryImage`: the `updateMany` clearing the flag
on every image of the product. -/
def clearPrimary (productId : Nat) (image : PImage) : PImage :=
  if image.product_id == productId then { image with is_primary := false } else image

/-- Second step of `setPrimaryImage`: the `findByIdAndUpdate` raising the
flag on the image with the given id. -/
def raisePrimary (imageId : Nat) (image : PImage) : PImage :=
  if image.id == imageId then { image with is_primary := true } else image

/-- Image rewrite a whole `setPrimaryImage` call performs on each stored
image. -/
def primaryRewrite (imageId productId : Nat) (image : PImage) : PImage :=
  raisePrimary imageId (clearPrimary productId image)

theorem setPrimaryImage_eq_map (db : List PImage) (imageId productId : Nat) :
    setPrimaryImage db imageId productId = db.map (primaryRewrite imageId productId) := by
  unfold setPrimaryImage primaryRewrite raisePrimary clearPrimary
  rw [List.map_map]
  rfl

theorem clearPrimary_id (productId : Nat) (x : PImage) :
    (clearPrimary productId x).id = x.id := by
  unfold clearPrimary; split <;> rfl

theorem clearPrimary_product_id (productId : Nat) (x : PImage) :
    (clearPrimary productId x).product_id = x.product_id := by
  unfold clearPrimary; split <;> rfl

theorem raisePrimary_id (imageId : Nat) (x : PImage) :
    (raisePrimary imageId x).id = x.id := by
  unfold raisePrimary; split <;> rfl

theorem raisePrimary_product_id (imageId : Nat) (x : PImage) :
    (raisePrimary imageId x).product_id = x.product_id := by
  unfold raisePrimary; split <;> rfl

theorem primaryRewrite_id (imageId productId : Nat) (x : PImage) :
    (primaryRewrite imageId productId x).id = x.id := by
  unfold primaryRewrite
  rw [raisePrimary_id, clearPrimary_id]

theorem primaryRewrite_product_id (imageId productId : Nat) (x : PImage) :
    (primaryRewrite imageId productId x).product_id = x.product_id := by
  unfold primaryRewrite
  rw [raisePrimary_product_id, clearPrimary_product_id]

theorem primaryRewrite_primary_of_id (imageId productId : Nat) (x : PImage)
    (h : x.id = imageId) : (primaryRewrite imageId productId x).is_primary = true := by
  unfold primaryRewrite raisePrimary
  rw [if_pos (by rw [clearPrimary_id, h]; simp)]

theorem primaryRewrite_primary_of_ne (imageId productId : Nat) (x : PImage)
    (hne : x.id ≠ imageId) (hprod : x.product_id = productId) :
    (primaryRewrite imageId productId x).is_primary = false := by
  unfold primaryRewrite raisePrimary
  rw [if_neg (by rw [clearPrimary_id]; simpa using hne)]
  unfold clearPrimary
  rw [if_pos (by simp [hprod])]

theorem mem_id_unique (db : List PImage) (img x : PImage)
    (hnodup : (db.map PImage.id).Nodup) (hmem : img ∈ db) (hx : x ∈ db)
    (heq : x.id = img.id) : x = img := by
  induction db with
  | nil => cases hmem
  | cons y ys ih =>
    simp only [List.map_cons, List.nodup_cons] at hnodup
    rcases List.mem_cons.mp hmem with hiy | hiys
    · rcases List.mem_cons.mp hx with hxy | hxys
      · rw [hxy, hiy]
      · exfalso
        apply hnodup.1
        rw [← hiy, ← heq]
        exact List.mem_map_of_mem PImage.id hxys
    · rcases List.mem_cons.mp hx with hxy | hxys
      · exfalso
        apply hnodup.1
        rw [← hxy, heq]
        exact List.mem_map_of_mem PImage.id hiys
      · exact ih hnodup.2 hiys hxys

theorem filter_idlike_singleton (db : List PImage) (img : PImage) (imageId : Nat)
    (q : PImage → Bool)
    (hmem : img ∈ db) (hid : img.id = imageId)
    (hnodup : (db.map PImage.id).Nodup)
    (hq : ∀ x ∈ db, q x = (x.id == imageId)) :
    db.filter q = [img] := by
  induction db with
  | nil => cases hmem
  | cons y ys ih =>
    simp only [List.map_cons, List.nodup_cons] at hnodup
    rcases List.mem_cons.mp hmem with hiy | hiys
    · have hqy : q y = true := by
        rw [hq y (List.mem_cons_self y ys), ← hiy, hid]
        simp
      have htail : ys.filter q = [] := by
        rw [List.filter_eq_nil_iff]
        intro x hx hqx
        rw [hq x (List.mem_cons_of_mem y hx)] at hqx
        have hxid : x.id = imageId := by simpa using hqx
        apply hnodup.1
        rw [← hiy, hid, ← hxid]
        exact List.mem_map_of_mem PImage.id hx
      rw [List.filter_cons, if_pos (by simp [hqy]), htail, hiy]
    · have hyne : y.id ≠ imageId := fun hc =>
        hnodup.1 (by rw [hc, ← hid]; exact List.mem_map_of_mem PImage.id hiys)
      have hqy : q y = false := by
        rw [hq y (List.mem_cons_self y ys)]
        simpa using hyne
      rw [List.filter_cons, if_neg (by simp [hqy])]
      exact ih hiys hnodup.2 (fun x hx => hq x (List.mem_cons_of_mem y hx))

/-- C8: for every image of a product, after setting it primary, exactly
one image of that product carries the primary flag, and it is the
designated one, whatever the flags were before. -/
theorem setPrimaryImage_exactly_one_primary
    (db : List PImage) (imageId productId : Nat) (img : PImage)
    (hmem : img ∈ db) (hid : img.id = imageId) (hprod : img.product_id = productId)
    (hnodup : (db.map PImage.id).Nodup) :
    ((setPrimaryImage db imageId productId).filter
      (fun i => i.product_id == productId && i.is_primary)).length = 1 ∧
    ∀ i ∈ setPrimaryImage db imageId productId,
      i.product_id = productId → (i.is_primary = true ↔ i.id = imageId) := by
  have hmap := setPrimaryImage_eq_map db imageId productId
  constructor
  · rw [hmap, List.filter_map, List.length_map]
    rw [filter_idlike_singleton db img imageId
      ((fun i => i.product_id == productId && i.is_primary) ∘ primaryRewrite imageId productId)
      hmem hid hnodup ?_]
    · rfl
    · intro x hx
      simp only [Function.comp_apply]
      by_cases hxid : x.id = imageId
      · have hxi : x = img := mem_id_unique db img x hnodup hmem hx (by rw [hxid, ← hid])
        rw [primaryRewrite_product_id, primaryRewrite_primary_of_id _ _ _ hxid, hxi, hprod]
        simp [hxid, hxi, hid]
      · by_cases hxprod : x.product_id = productId
        · rw [primaryRewrite_product_id, primaryRewrite_primary_of_ne _ _ _ hxid hxprod]
          simp [hxid]
        · have h1 : (x.product_id == productId) = false := by simpa using hxprod
          have h2 : (x.id == imageId) = false := by simpa using hxid
          rw [primaryRewrite_product_id]
          simp [h1, h2]
  · intro i hi hiprod
    rw [hmap] at hi
    obtain ⟨x, hx, hFx⟩ := List.mem_map.mp hi
    by_cases hxid : x.id = imageId
    · rw [← hFx, primaryRewrite_id, primaryRewrite_primary_of_id _ _ _ hxid]
      simp [hxid]
    · have hxprod : x.product_id = productId := by
        rw [← hFx, primaryRewrite_product_id] at hiprod
        exact hiprod
      rw [← hFx, primaryRewrite_id, primaryRewrite_primary_of_ne _ _ _ hxid hxprod]
      simp [hxid]

/-- Product image table with two primary flags already set on product
ten, a state the operation must still repair. -/
def imagesDb : List PImage :=
  [{ id := 1, product_id := 10, is_primary := true, is_active := true },
   { id := 2, product_id := 10, is_primary := true, is_active := true },
   { id := 3, product_id := 11, is_primary := false, is_active := true }]

/-- Witness for C8: setting image two primary on product ten leaves
exactly one primary image of that product, namely image two. -/
theorem setPrimaryImage_exactly_one_primary_witness :
    ((setPrimaryImage imagesDb 2 10).filter
      (fun i => i.product_id == 10 && i.is_primary)).length = 1 ∧
    ∀ i ∈ setPrimaryImage imagesDb 2 10,
      i.product_id = 10 → (i.is_primary = true ↔ i.id = 2) :=
  setPrimaryImage_exactly_one_primary imagesDb 2 10
    { id := 2, product_id := 10, is_primary := true, is_active := true }
    (by decide) (by rfl) (by rfl) (by decide)

/-! Slug derivation. -/

theorem toLower_isLower_of_isAlpha (c : Char) :
    (Char.toLower c).isAlpha = true → (Char.toLower c).isLower = true := by
  unfold Char.toLower
  dsimp only
  split
  · rename_i h
    intro _
    have hv : (Char.toNat c + 32).isValidChar := Or.inl (by omega)
    rw [Char.ofNat, dif_pos hv]
    unfold Char.ofNatAux Char.isLower
    simp only [ge_iff_le, UInt32.le_def, BitVec.le_def, Bool.and_eq_true, decide_eq_true_eq]
    constructor
    · show (97 : UInt32).toBitVec.toNat ≤ _
      simp [BitVec.toNat_ofNatLt]
      omega
    · show _ ≤ (122 : UInt32).toBitVec.toNat
      simp [BitVec.toNat_ofNatLt]
      omega
  · intro halpha
    rename_i h
    rw [Char.isAlpha, Bool.or_eq_true] at halpha
    rcases halpha with hup | hlo
    · exfalso
      rw [Char.isUpper, Bool.and_eq_true] at hup
      apply h
      constructor
      · have := hup.1
        simp only [ge_iff_le, UInt32.le_def, BitVec.le_def, decide_eq_true_eq] at this
        exact this
      · have := hup.2
        simp only [UInt32.le_def, BitVec.le_def, decide_eq_true_eq] at this
        exact this
    · exact hlo

theorem mem_collapseWs (l : List Char) (flag : Bool) (c : Char)
    (hc : c ∈ collapseWs flag l) :
    c = '-' ∨ (c ∈ l ∧ c.isWhitespace = false) := by
  induction l generalizing flag with
  | nil => cases hc
  | cons x xs ih =>
    unfold collapseWs at hc
    by_cases hx : x.isWhitespace = true
    · rw [if_pos hx] at hc
      split at hc
      · rcases ih true hc with h | h
        · exact Or.inl h
        · exact Or.inr ⟨List.mem_cons_of_mem x h.1, h.2⟩
      · rcases List.mem_cons.mp hc with h | h
        · exact Or.inl h
        · rcases ih true h with h2 | h2
          · exact Or.inl h2
          · exact Or.inr ⟨List.mem_cons_of_mem x h2.1, h2.2⟩
    · rw [if_neg hx] at hc
      rcases List.mem_cons.mp hc with h | h
      · subst h
        exact Or.inr ⟨List.mem_cons_self c xs, by simpa using hx⟩
      · rcases ih false h with h2 | h2
        · exact Or.inl h2
        · exact Or.inr ⟨List.mem_cons_of_mem x h2.1, h2.2⟩

theorem mem_jsTrim (l : List Char) (c : Char) (hc : c ∈ jsTrim l) : c ∈ l := by
  unfold jsTrim at hc
  rw [List.mem_reverse] at hc
  have h1 := (List.dropWhile_sublist _).subset hc
  rw [List.mem_reverse] at h1
  exact (List.dropWhile_sublist _).subset h1

theorem slugify_chars (name : String) :
    ∀ c ∈ (slugify name).data, isSlugChar c = true := by
  intro c hc
  have hc2 : c ∈ jsTrim (collapseWs false ((name.data.map Char.toLower).filter keepChar)) := hc
  have h1 := mem_jsTrim _ c hc2
  rcases mem_collapseWs _ _ c h1 with h | ⟨h2, hws⟩
  · simp [isSlugChar, h]
  · rw [List.mem_filter] at h2
    obtain ⟨hmem, hkeep⟩ := h2
    rw [List.mem_map] at hmem
    obtain ⟨c0, _, hc0⟩ := hmem
    rw [keepChar, Bool.or_eq_true, Bool.or_eq_true] at hkeep
    rcases hkeep with (halpha | hdigit) | hws2
    · have hlo : c.isLower = true := by
        rw [← hc0] at halpha ⊢
        exact toLower_isLower_of_isAlpha c0 halpha
      simp [isSlugChar, hlo]
    · simp [isSlugChar, hdigit]
    · rw [hws2] at hws
      cases hws

theorem digitChar_inj (a b : Nat) (ha : a < 10) (hb : b < 10)
    (h : Nat.digitChar a = Nat.digitChar b) : a = b := by
  interval_cases a <;> interval_cases b <;> simp_all [Nat.digitChar]

theorem map_digitChar_inj (l1 l2 : List Nat)
    (h1 : ∀ d ∈ l1, d < 10) (h2 : ∀ d ∈ l2, d < 10)
    (h : l1.map Nat.digitChar = l2.map Nat.digitChar) : l1 = l2 := by
  induction l1 generalizing l2 with
  | nil => cases l2 with
    | nil => rfl
    | cons y ys => cases h
  | cons x xs ih =>
    cases l2 with
    | nil => cases h
    | cons y ys =>
      simp only [List.map_cons, List.cons.injEq] at h
      rw [digitChar_inj x y (h1 x (List.mem_cons_self x xs))
          (h2 y (List.mem_cons_self y ys)) h.1,
        ih ys (fun d hd => h1 d (List.mem_cons_of_mem x hd))
          (fun d hd => h2 d (List.mem_cons_of_mem y hd)) h.2]

theorem natDecimal_inj (m n : Nat) (hm : 1 ≤ m) (hn : 1 ≤ n)
    (h : natDecimal m = natDecimal n) : m = n := by
  unfold natDecimal at h
  rw [if_neg (by omega), if_neg (by omega)] at h
  have hd : ((Nat.digits 10 m).map Nat.digitChar).reverse =
      ((Nat.digits 10 n).map Nat.digitChar).reverse := congrArg String.data h
  rw [List.reverse_inj] at hd
  have hdig := map_digitChar_inj _ _
    (fun d hd2 => Nat.digits_lt_base (by norm_num) hd2)
    (fun d hd2 => Nat.digits_lt_base (by norm_num) hd2) hd
  have hm2 := Nat.ofDigits_digits 10 m
  have hn2 := Nat.ofDigits_digits 10 n
  rw [← hm2, ← hn2, hdig]

theorem base_ne_suffixed (base suffix : String) :
    base ≠ base ++ "-" ++ suffix := by
  intro h
  have hd := congrArg List.length (congrArg String.data h)
  simp only [String.data_append, List.length_append] at hd
  have hone : ("-" : String).data.length = 1 := rfl
  rw [hone] at hd
  omega

theorem suffixed_inj (base : String) (i j : Nat) (hi : 1 ≤ i) (hj : 1 ≤ j)
    (h : base ++ "-" ++ natDecimal i = base ++ "-" ++ natDecimal j) : i = j := by
  apply natDecimal_inj i j hi hj
  have hd := congrArg String.data h
  simp only [String.data_append, List.append_assoc] at hd
  have hd2 := List.append_cancel_left hd
  have hd3 := List.append_cancel_left hd2
  exact String.ext hd3

theorem mem_slugCandidates (base : String) (fuel : Nat) (slug : String) (counter : Nat)
    (cand : String) (h : cand ∈ slugCandidates base fuel slug counter) :
    cand = slug ∨ ∃ k, counter ≤ k ∧ cand = base ++ "-" ++ natDecimal k := by
  induction fuel generalizing slug counter with
  | zero =>
    rcases List.mem_singleton.mp h with h1
    exact Or.inl h1
  | succ f ih =>
    unfold slugCandidates at h
    rcases List.mem_cons.mp h with h1 | h1
    · exact Or.inl h1
    · rcases ih _ _ h1 with h2 | ⟨k, hk, h3⟩
      · exact Or.inr ⟨counter, Nat.le_refl _, h2⟩
      · exact Or.inr ⟨k, by omega, h3⟩

theorem slugCandidates_nodup (base : String) (fuel : Nat) (slug : String) (counter : Nat)
    (hc : 1 ≤ counter)
    (hfresh : ∀ k, counter ≤ k → slug ≠ base ++ "-" ++ natDecimal k) :
    (slugCandidates base fuel slug counter).Nodup := by
  induction fuel generalizing slug counter with
  | zero => simp [slugCandidates]
  | succ f ih =>
    unfold slugCandidates
    rw [List.nodup_cons]
    constructor
    · intro hmem
      rcases mem_slugCandidates _ _ _ _ _ hmem with h | ⟨k, hk, h⟩
      · exact hfresh counter (Nat.le_refl _) h
      · exact hfresh k (by omega) h
    · apply ih
      · omega
      · intro k hk heq
        have : counter = k := suffixed_inj base counter k hc (by omega) heq
        omega

theorem length_slugCandidates (base : String) (fuel : Nat) (slug : String) (counter : Nat) :
    (slugCandidates base fuel slug counter).length = fuel + 1 := by
  induction fuel generalizing slug counter with
  | zero => rfl
  | succ f ih => simp [slugCandidates, ih]

theorem resolveSlugAux_mem_candidates (existing : List String) (base : String)
    (fuel : Nat) (slug : String) (counter : Nat) :
    resolveSlugAux existing base fuel slug counter ∈
      slugCandidates base fuel slug counter := by
  induction fuel generalizing slug counter with
  | zero => exact List.mem_singleton.mpr rfl
  | succ f ih =>
    unfold resolveSlugAux slugCandidates
    split
    · exact List.mem_cons_of_mem _ (ih _ _)
    · exact List.mem_cons_self _ _

theorem resolveSlugAux_all_taken (existing : List String) (base : String)
    (fuel : Nat) (slug : String) (counter : Nat)
    (h : resolveSlugAux existing base fuel slug counter ∈ existing) :
    ∀ cand ∈ slugCandidates base fuel slug counter, cand ∈ existing := by
  induction fuel generalizing slug counter with
  | zero =>
    intro cand hcand
    rcases List.mem_singleton.mp hcand with h1
    subst h1
    simpa [resolveSlugAux] using h
  | succ f ih =>
    intro cand hcand
    unfold resolveSlugAux at h
    by_cases hs : existing.contains slug = true
    · rw [if_pos hs] at h
      unfold slugCandidates at hcand
      rcases List.mem_cons.mp hcand with h1 | h1
      · subst h1
        exact List.elem_iff.mp hs
      · exact ih _ _ h _ h1
    · rw [if_neg hs] at h
      exact absurd (List.elem_iff.mpr h) hs

theorem uniqueSlug_not_mem (existing : List String) (name : String) :
    uniqueSlug existing name ∉ existing := by
  intro hmem
  unfold uniqueSlug at hmem
  have hall := resolveSlugAux_all_taken existing (slugify name) (existing.length + 1)
    (slugify name) 1 hmem
  have hnodup := slugCandidates_nodup (slugify name) (existing.length + 1)
    (slugify name) 1 (Nat.le_refl 1)
    (fun k _ => base_ne_suffixed (slugify name) (natDecimal k))
  have hsp := List.subperm_of_subset hnodup (fun cand hcand => hall cand hcand)
  have hlen := hsp.length_le
  rw [length_slugCandidates] at hlen
  omega

/-- C9 amended: the product, group, service and blog pre-save hooks
derive a slug made only of lowercase letters, digits and hyphens, and
resolve a collision with the existing slugs by appending a numeric
suffix until the slug is unique; the category pre-save hook derives the
same base slug but performs no collision resolution at all. -/
theorem slug_derivation_amended (existing : List String) (name : String) :
    (∀ c ∈ (slugify name).data, isSlugChar c = true) ∧
    uniqueSlug existing name ∉ existing ∧
    (uniqueSlug existing name = slugify name ∨
      ∃ k, 1 ≤ k ∧ uniqueSlug existing name = slugify name ++ "-" ++ natDecimal k) ∧
    categorySlug name = slugify name := by
  refine ⟨slugify_chars name, uniqueSlug_not_mem existing name, ?_, rfl⟩
  have h := resolveSlugAux_mem_candidates existing (slugify name) (existing.length + 1)
    (slugify name) 1
  rcases mem_slugCandidates _ _ _ _ _ h with h1 | ⟨k, hk, h1⟩
  · exact Or.inl h1
  · exact Or.inr ⟨k, hk, h1⟩

theorem natDecimal_one : natDecimal 1 = "1" := by
  unfold natDecimal
  rw [if_neg (by omega)]
  have h1 : Nat.digits 10 1 = [1] := by
    rw [Nat.digits_def' (by norm_num : (1 : Nat) < 10) (by norm_num : 0 < 1)]
    norm_num
  rw [h1]
  rfl

/-- C9 counterexample: the category hook does not resolve collisions.
With an existing slug `shoes`, renaming or creating a category `Shoes?`
derives the very slug `shoes` again, with no numeric suffix, while the
suffix loop of the other schemas would store `shoes-1`. -/
theorem categorySlug_collision_unresolved :
    categorySlug "Shoes?" = "shoes" ∧
    categorySlug "Shoes?" ∈ ["shoes"] ∧
    uniqueSlug ["shoes"] "Shoes?" = "shoes-1" := by
  have hs : categorySlug "Shoes?" = "shoes" := by decide
  refine ⟨hs, by rw [hs]; exact List.mem_singleton.mpr rfl, ?_⟩
  have hb : slugify "Shoes?" = "shoes" := hs
  have step1 : ∀ (ex : List String) (base : String) (fuel : Nat) (slug : String)
      (counter : Nat), ex.contains slug = true →
      resolveSlugAux ex base (fuel + 1) slug counter =
        resolveSlugAux ex base fuel (base ++ "-" ++ natDecimal counter) (counter + 1) := by
    intro ex base fuel slug counter hcon
    conv_lhs => unfold resolveSlugAux
    rw [if_pos hcon]
  have step2 : ∀ (ex : List String) (base : String) (fuel : Nat) (slug : String)
      (counter : Nat), ex.contains slug = false →
      resolveSlugAux ex base (fuel + 1) slug counter = slug := by
    intro ex base fuel slug counter hcon
    conv_lhs => unfold resolveSlugAux
    rw [if_neg (by intro hcc; rw [hcon] at hcc; cases hcc)]
  unfold uniqueSlug
  rw [hb]
  show resolveSlugAux ["shoes"] "shoes" (1 + 1) "shoes" 1 = "shoes-1"
  rw [step1 _ _ _ _ _ (by decide), natDecimal_one,
    step2 _ _ _ _ _ (by decide)]
  decide

/-- Witness for the amended C9 theorem: on the name `My Shoes` against the
existing slug set, the derived character set, the uniqueness of the
resolved slug and the category behaviour are all instantiated. -/
theorem slug_derivation_amended_witness :
    isSlugChar 'm' = true ∧
    uniqueSlug ["my-shoes"] "My Shoes" ∉ ["my-shoes"] ∧
    categorySlug "My Shoes" = slugify "My Shoes" :=
  ⟨(slug_derivation_amended ["my-shoes"] "My Shoes").1 'm' (by decide),
   (slug_derivation_amended ["my-shoes"] "My Shoes").2.1,
   (slug_derivation_amended ["my-shoes"] "My Shoes").2.2.2⟩
